import Mathlib

/-!
Verification development for the QuadraticSurface repository.

The repository has two algorithmic cores:

* the Quadric Classifier `analyzeSurface` (src/unnamed/part_000; the file
  contains two revisions of the function, the second one — building the
  symmetric matrix with halved cross coefficients — being the one the rest
  of the application imports), and
* the Smart Numeric Formatter `formatSmart` (src/components/ResultPanel.tsx).

JavaScript numbers are modelled by exact rationals `ℚ`.  The external
eigensolver `math.eigs` (loaded from a CDN, declared `math: any` in the
source) is modelled as an explicit oracle argument `EigsOut`; hypotheses
about it correspond to the collaborator contract of spec section 4.2.
-/

namespace QS

/-- Tolerance constant of the formatter (`ABS_TOLERANCE = 1e-5`). -/
def ABS_TOLERANCE : ℚ := 1 / 100000

/-- JavaScript `Math.abs` on the rational model. -/
def jabs (x : ℚ) : ℚ := if x < 0 then -x else x

/-- JavaScript `Math.round`: round half toward positive infinity. -/
def jround (x : ℚ) : ℤ := ⌊x + 1 / 2⌋

/-- The `gcd` helper of ResultPanel.tsx: `gcd(a, b) = b === 0 ? a : gcd(b, a % b)`.
`Nat.gcd` with swapped arguments satisfies exactly these defining equations
(`Nat.gcd 0 a = a` and `Nat.gcd b a = Nat.gcd (a % b) b` for `b ≠ 0`). -/
def gcdJS (a b : ℕ) : ℕ := Nat.gcd b a

/-- Digit string of a natural number with left zero padding to `f` digits. -/
def padDigits (f : ℕ) (n : ℕ) : String :=
  let s := toString n
  String.mk (List.replicate (f - s.length) '0') ++ s

/-- JavaScript `Number.prototype.toFixed(f)` for our rational model: a
leading minus sign for negative input, then the integer `n` minimizing
`|n / 10^f - |x||` (ties toward the larger `n`, hence `⌊|x|·10^f + 1/2⌋`)
printed with `f` decimal places. -/
def toFixed (f : ℕ) (x : ℚ) : String :=
  let n := (⌊jabs x * (10 : ℚ) ^ f + 1 / 2⌋).toNat
  let intPart := toString (n / 10 ^ f)
  let fracPart := padDigits f (n % 10 ^ f)
  (if x < 0 then "-" else "") ++ intPart ++ "." ++ fracPart

/-- Descending loop body of `simplifyRoot`: try `i, i-1, …, 1`, return the
first `i` whose square divides `n`; `(1, n)` when the counter is exhausted. -/
def simplifyRootAux (n : ℕ) : ℕ → ℕ × ℕ
  | 0 => (1, n)
  | i + 1 =>
    if n % ((i + 1) * (i + 1)) = 0 then (i + 1, n / ((i + 1) * (i + 1)))
    else simplifyRootAux n i

/-- `simplifyRoot` of ResultPanel.tsx: factor the largest perfect square out
of `n`, scanning `i` from `⌊√n⌋` down to `1`; result `(coeff, rad)`. -/
def simplifyRoot (n : ℕ) : ℕ × ℕ := simplifyRootAux n (Nat.sqrt n)

/-- Step 2 of the formatter ladder: the `for (q = 2; q <= 50; q++)` loop.
`qs` is the list of remaining denominators. -/
def fracSearch (sign : String) (absVal : ℚ) : List ℕ → Option String
  | [] => none
  | q :: qs =>
    let p := absVal * (q : ℚ)
    if jabs (p - (jround p : ℚ)) < ABS_TOLERANCE then
      let pInt := (jround p).toNat
      let common := gcdJS pInt q
      some (sign ++ toString (pInt / common) ++ "/" ++ toString (q / common))
    else fracSearch sign absVal qs

/-- Step 3 of the formatter ladder: the `for (q = 1; q <= 100; q++)` loop of
radical recognition, acting on `sq = absVal²`. -/
def radSearch (sign : String) (sq : ℚ) : List ℕ → Option String
  | [] => none
  | q :: qs =>
    let p := sq * (q : ℚ)
    if jabs (p - (jround p : ℚ)) < ABS_TOLERANCE then
      let pInt := (jround p).toNat
      let common := gcdJS pInt q
      let num := pInt / common
      let den := q / common
      let sNum := simplifyRoot num
      let sDen := simplifyRoot den
      let numStr :=
        if sNum.2 = 1 then toString sNum.1
        else if sNum.1 = 1 then "√" ++ toString sNum.2
        else toString sNum.1 ++ "√" ++ toString sNum.2
      if sDen.2 = 1 then
        if sDen.1 = 1 then some (sign ++ numStr)
        else some (sign ++ numStr ++ "/" ++ toString sDen.1)
      else
        if sDen.1 = 1 then some (sign ++ numStr ++ "/" ++ ("√" ++ toString sDen.2))
        else some (sign ++ numStr ++ "/" ++ (toString sDen.1 ++ "√" ++ toString sDen.2))
    else radSearch sign sq qs

/-- The Smart Numeric Formatter `formatSmart` of ResultPanel.tsx: zero test,
integer test, bounded fraction search (denominators 2..50), bounded radical
search (denominators 1..100), 4-decimal fallback. -/
def formatSmart (val : ℚ) : String :=
  if jabs val < ABS_TOLERANCE then "0"
  else
    let sign := if val < 0 then "-" else ""
    let absVal := jabs val
    if jabs (absVal - (jround absVal : ℚ)) < ABS_TOLERANCE then
      sign ++ toString (jround absVal).toNat
    else
      match fracSearch sign absVal (List.range' 2 49) with
      | some s => s
      | none =>
        let sq := absVal * absVal
        match radSearch sign sq (List.range' 1 100) with
        | some s => s
        | none => toFixed 4 val

/-- The IEEE-754 double closest to 2/3 (the value `2/3` evaluates to in the
source language), as an exact rational. -/
def twoThirdsD : ℚ := 6004799503160661 / 9007199254740992

/-- The IEEE-754 double `Math.sqrt(2)`, as an exact rational. -/
def sqrtTwoD : ℚ := 6369051672525773 / 4503599627370496

/-- The IEEE-754 double `3 * Math.sqrt(5) / 7`, as an exact rational. -/
def threeSqrtFiveOverSevenD : ℚ := 269741649381513 / 281474976710656

/-! ## Quadric Classifier (`analyzeSurface`, second revision in src/unnamed/part_000)

JavaScript numbers are rationals; the `math.eigs` output is the oracle
`EigsOut`.  `EigPair.idx` records which solver column a pair came from; it is
ghost provenance data used only to state stability of the sort.
-/

/-- The ten input coefficients (src/types.ts, `Coefficients`). -/
structure Coefficients where
  a11 : ℚ
  a22 : ℚ
  a33 : ℚ
  a12 : ℚ
  a23 : ℚ
  a13 : ℚ
  b1 : ℚ
  b2 : ℚ
  b3 : ℚ
  c : ℚ

/-- `centerType` values of `AnalysisResult` (src/types.ts). -/
inductive CenterType where
  | Point
  | Line
  | Plane
  | None
  | Unknown
deriving DecidableEq

/-- `AnalysisResult` (src/types.ts). -/
structure AnalysisResult where
  eigenvalues : List ℚ
  rotationMatrix : Matrix (Fin 3) (Fin 3) ℚ
  translationVector : Fin 3 → ℚ
  standardForm : String
  centerType : CenterType
  surfaceType : String

/-- Tolerance of the classifier (`const epsilon = 1e-5`). -/
def epsilon : ℚ := 1 / 100000

/-- Matrix `A` of the second revision: halved cross coefficients off the
diagonal (part_000 lines 196-200). -/
def buildA (k : Coefficients) : Matrix (Fin 3) (Fin 3) ℚ :=
  !![k.a11, k.a12 / 2, k.a13 / 2;
     k.a12 / 2, k.a22, k.a23 / 2;
     k.a13 / 2, k.a23 / 2, k.a33]

/-- Matrix `A` of the first revision: full cross coefficients off the
diagonal (part_000 lines 12-16). -/
def buildA_v1 (k : Coefficients) : Matrix (Fin 3) (Fin 3) ℚ :=
  !![k.a11, k.a12, k.a13;
     k.a12, k.a22, k.a23;
     k.a13, k.a23, k.a33]

/-- The linear coefficient vector `J = [b1, b2, b3]`. -/
def Jvec (k : Coefficients) : Fin 3 → ℚ := ![k.b1, k.b2, k.b3]

/-- Output of the external eigensolver `math.eigs`: three (real parts of)
eigenvalues and the matrix whose columns are the eigenvectors. -/
structure EigsOut where
  values : Fin 3 → ℚ
  vectors : Matrix (Fin 3) (Fin 3) ℚ

/-- One entry of the `eigPairs` array: an eigenvalue with its eigenvector
column.  `idx` is the solver column the pair was built from (ghost data). -/
structure EigPair where
  val : ℚ
  vec : Fin 3 → ℚ
  idx : Fin 3

/-- `eigPairs[i] = { val: eigenvalues[i], vec: column i of vectors }`. -/
def mkPair (eo : EigsOut) (i : Fin 3) : EigPair :=
  ⟨eo.values i, fun r => eo.vectors r i, i⟩

/-- `eigPairs.sort((a, b) => b.val - a.val)`: JavaScript array sort is stable,
and a stable sort under the descending comparator produces exactly this
insertion-sort arrangement of the three pairs. -/
def sort3 (p0 p1 p2 : EigPair) : EigPair × EigPair × EigPair :=
  if p2.val ≤ p1.val then
    if p1.val ≤ p0.val then (p0, p1, p2)
    else if p2.val ≤ p0.val then (p1, p0, p2)
    else (p1, p2, p0)
  else
    if p2.val ≤ p0.val then (p0, p2, p1)
    else if p1.val ≤ p0.val then (p2, p0, p1)
    else (p2, p1, p0)

/-- The sorted eigenpairs of a solver output. -/
def sortedPairs (eo : EigsOut) : EigPair × EigPair × EigPair :=
  sort3 (mkPair eo 0) (mkPair eo 1) (mkPair eo 2)

/-- `eigenvalues = eigPairs.map(p => p.val)` after sorting. -/
def sortedVals (eo : EigsOut) : List ℚ :=
  [(sortedPairs eo).1.val, (sortedPairs eo).2.1.val, (sortedPairs eo).2.2.val]

/-- The sorted eigenvalues as a function on axis indices. -/
def evFun (eo : EigsOut) : Fin 3 → ℚ :=
  ![(sortedPairs eo).1.val, (sortedPairs eo).2.1.val, (sortedPairs eo).2.2.val]

/-- The matrix `M` assembled from the sorted eigenvectors as columns
(before orientation correction). -/
def rawM (eo : EigsOut) : Matrix (Fin 3) (Fin 3) ℚ :=
  Matrix.of fun i =>
    ![(sortedPairs eo).1.vec i, (sortedPairs eo).2.1.vec i, (sortedPairs eo).2.2.vec i]

/-- `math.det` on a 3×3 matrix: the determinant. -/
def det3 (A : Matrix (Fin 3) (Fin 3) ℚ) : ℚ :=
  A 0 0 * (A 1 1 * A 2 2 - A 1 2 * A 2 1)
    - A 0 1 * (A 1 0 * A 2 2 - A 1 2 * A 2 0)
    + A 0 2 * (A 1 0 * A 2 1 - A 1 1 * A 2 0)

/-- In-place negation of the third column (`M[i][2] *= -1`). -/
def flipCol2 (M : Matrix (Fin 3) (Fin 3) ℚ) : Matrix (Fin 3) (Fin 3) ℚ :=
  Matrix.of fun i j => if j = 2 then -(M i j) else M i j

/-- Orientation-corrected rotation matrix: flip the third column when the
raw determinant is negative (part_000 lines 251-257). -/
def rotM (eo : EigsOut) : Matrix (Fin 3) (Fin 3) ℚ :=
  if det3 (rawM eo) < 0 then flipCol2 (rawM eo) else rawM eo

/-- `math.transpose`. -/
def transpose3 (M : Matrix (Fin 3) (Fin 3) ℚ) : Matrix (Fin 3) (Fin 3) ℚ :=
  Matrix.of fun i j => M j i

/-- `math.multiply` of a 3×3 matrix and a vector. -/
def mulVec3 (M : Matrix (Fin 3) (Fin 3) ℚ) (v : Fin 3 → ℚ) : Fin 3 → ℚ :=
  fun i => M i 0 * v 0 + M i 1 * v 1 + M i 2 * v 2

/-- `math.multiply` of two 3×3 matrices. -/
def mul3 (A B : Matrix (Fin 3) (Fin 3) ℚ) : Matrix (Fin 3) (Fin 3) ℚ :=
  Matrix.of fun i j => A i 0 * B 0 j + A i 1 * B 1 j + A i 2 * B 2 j

/-- The 3×3 identity matrix. -/
def idMat3 : Matrix (Fin 3) (Fin 3) ℚ :=
  Matrix.of fun i j => if i = j then 1 else 0

/-- Dot product of two 3-vectors. -/
def dot3 (u v : Fin 3 → ℚ) : ℚ := u 0 * v 0 + u 1 * v 1 + u 2 * v 2

/-- `J_prime = math.multiply(math.transpose(M), J)`: the rotated linear
coefficient vector. -/
def Jrot (k : Coefficients) (eo : EigsOut) : Fin 3 → ℚ :=
  mulVec3 (transpose3 (rotM eo)) (Jvec k)

/-- Mutable state of the completing-the-square loop: shift vector `S`,
running constant `c_prime`, and the list `linearVars` of parabolic axes. -/
structure CSState where
  S : Fin 3 → ℚ
  c1 : ℚ
  linearVars : List (Fin 3)

/-- One iteration of the completing-the-square loop of the second revision
(part_000 lines 278-310). -/
def csStep (ev Jp : Fin 3 → ℚ) (st : CSState) (i : Fin 3) : CSState :=
  if epsilon < jabs (ev i) then
    { S := Function.update st.S i (-Jp i / (2 * ev i))
      c1 := st.c1 - Jp i * Jp i / (4 * ev i)
      linearVars := st.linearVars }
  else if epsilon < jabs (Jp i) then
    { S := Function.update st.S i (-st.c1 / Jp i)
      c1 := 0
      linearVars := st.linearVars ++ [i] }
  else
    { S := Function.update st.S i 0
      c1 := st.c1
      linearVars := st.linearVars }

/-- One iteration of the completing-the-square loop of the first revision
(part_000 lines 89-112): shifts `-bᵢ/λ`, constant decrement `bᵢ²/λ`, and
parabolic shift `-c_prime/(2bᵢ)`. -/
def csStep_v1 (ev Jp : Fin 3 → ℚ) (st : CSState) (i : Fin 3) : CSState :=
  if epsilon < jabs (ev i) then
    { S := Function.update st.S i (-Jp i / ev i)
      c1 := st.c1 - Jp i * Jp i / ev i
      linearVars := st.linearVars }
  else if epsilon < jabs (Jp i) then
    { S := Function.update st.S i (-st.c1 / (2 * Jp i))
      c1 := 0
      linearVars := st.linearVars ++ [i] }
  else
    { S := Function.update st.S i 0
      c1 := st.c1
      linearVars := st.linearVars }

/-- The full loop `for (i = 0; i < 3; i++)`, with `S = [0,0,0]`, `c_prime = c`
and `linearVars = []` initially. -/
def completeSquare (ev Jp : Fin 3 → ℚ) (c : ℚ) : CSState :=
  csStep ev Jp (csStep ev Jp (csStep ev Jp ⟨fun _ => 0, c, []⟩ 0) 1) 2

/-- The loop state produced by `analyzeSurface` on input `k` with solver
output `eo`. -/
def csOut (k : Coefficients) (eo : EigsOut) : CSState :=
  completeSquare (evFun eo) (Jrot k eo) k.c

/-- `rank`: number of eigenvalues with `|λ| > ε`. -/
def rankOf (evs : List ℚ) : ℕ :=
  (evs.filter fun v => decide (epsilon < jabs v)).length

/-- `sigPos`: number of eigenvalues `> ε`. -/
def sigPosOf (evs : List ℚ) : ℕ :=
  (evs.filter fun v => decide (epsilon < v)).length

/-- `sigNeg`: number of eigenvalues `< -ε`. -/
def sigNegOf (evs : List ℚ) : ℕ :=
  (evs.filter fun v => decide (v < -epsilon)).length

/-- Number of eigenvalues whose sign matches `rhs` (`λ·rhs > 0`). -/
def sameSignCount (evs : List ℚ) (rhs : ℚ) : ℕ :=
  (evs.filter fun l => decide (0 < l * rhs)).length

/-- Surface classification of the second revision (part_000 lines 348-378). -/
def classify (evs : List ℚ) (lv : List (Fin 3)) (c1 : ℚ) : String :=
  if 0 < lv.length then
    if rankOf evs = 2 then
      if sigPosOf evs = 2 ∨ sigNegOf evs = 2 then "Elliptic Paraboloid"
      else "Hyperbolic Paraboloid"
    else if rankOf evs = 1 then "Parabolic Cylinder"
    else "General Quadric"
  else
    if rankOf evs = 3 then
      if jabs c1 < epsilon then "Cone (Real or Imaginary)"
      else
        if sameSignCount evs (-c1) = 3 then "Ellipsoid"
        else if sameSignCount evs (-c1) = 2 then "Hyperboloid of One Sheet"
        else if sameSignCount evs (-c1) = 1 then "Hyperboloid of Two Sheets"
        else "Imaginary Ellipsoid"
    else if rankOf evs = 2 then
      if jabs c1 < epsilon then
        if sigPosOf evs = 2 ∨ sigNegOf evs = 2 then "Intersecting Planes (Imaginary)"
        else "Intersecting Planes"
      else
        if sigPosOf evs = 2 ∨ sigNegOf evs = 2 then "Elliptic Cylinder"
        else "Hyperbolic Cylinder"
    else if rankOf evs = 1 then
      if jabs c1 < epsilon then "Coincident Planes" else "Parallel Planes"
    else "General Quadric"

/-- The display variable names `["x'", "y'", "z'"]`. -/
def varName : Fin 3 → String := !["x\x27", "y\x27", "z\x27"]

/-- Push one quadratic term (part_000 lines 320-328): sign from the term's
value and from whether a term was already emitted, coefficient `|λ|` elided
when within `1e-4` of 1, otherwise 2 decimals. -/
def pushQuad (terms : List String) (lam : ℚ) (v : String) : List String :=
  if epsilon < jabs lam then
    terms ++
      [(if lam < 0 then "-" else if 0 < terms.length then "+" else "") ++
        (" " ++
          ((if jabs (jabs lam - 1) < 1 / 10000 then "" else toFixed 2 (jabs lam)) ++
            (v ++ "^2")))]
  else terms

/-- Push one linear (parabolic) term (part_000 lines 331-337). -/
def pushLin (Jp : Fin 3 → ℚ) (terms : List String) (idx : Fin 3) : List String :=
  terms ++
    [(if Jp idx < 0 then "-" else if 0 < terms.length then "+" else "") ++
      (" " ++ (toFixed 2 (jabs (Jp idx)) ++ varName idx))]

/-- Push the constant term (part_000 lines 340-343). -/
def pushConst (terms : List String) (c1 : ℚ) : List String :=
  if epsilon < jabs c1 then
    terms ++
      [(if c1 < 0 then "-" else if 0 < terms.length then "+" else "") ++
        (" " ++ toFixed 2 (jabs c1))]
  else terms

/-- The `terms` array after the three phases. -/
def buildTerms (ev Jp : Fin 3 → ℚ) (lv : List (Fin 3)) (c1 : ℚ) : List String :=
  pushConst
    (lv.foldl (pushLin Jp)
      (pushQuad (pushQuad (pushQuad [] (ev 0) (varName 0)) (ev 1) (varName 1))
        (ev 2) (varName 2)))
    c1

/-- `standardForm` string (part_000 lines 345-346). -/
def renderForm (ev Jp : Fin 3 → ℚ) (lv : List (Fin 3)) (c1 : ℚ) : String :=
  let terms := buildTerms ev Jp lv c1
  if terms.length = 0 then "0 = 0"
  else (String.intercalate " " terms).trim ++ " = 0"

/-- The Quadric Classifier `analyzeSurface` (second revision), as a function
of the input coefficients and of the output the external eigensolver
returned for `buildA k`. -/
def analyzeSurface (k : Coefficients) (eo : EigsOut) : AnalysisResult :=
  { eigenvalues := sortedVals eo
    rotationMatrix := rotM eo
    translationVector := mulVec3 (rotM eo) (csOut k eo).S
    standardForm := renderForm (evFun eo) (Jrot k eo) (csOut k eo).linearVars (csOut k eo).c1
    centerType :=
      if 0 < (csOut k eo).linearVars.length then CenterType.None
      else if rankOf (sortedVals eo) = 3 then CenterType.Point
      else CenterType.Line
    surfaceType := classify (sortedVals eo) (csOut k eo).linearVars (csOut k eo).c1 }

/-- Per-axis shift of claim C2's description of the completing-the-square
loop: `-J'ᵢ/(2λᵢ)` on a non-degenerate axis, `-c'/J'ᵢ` on a parabolic axis,
`0` otherwise (`ccur` is the running constant when axis `i` is processed). -/
def axisShift (lam ji ccur : ℚ) : ℚ :=
  if epsilon < jabs lam then -ji / (2 * lam)
  else if epsilon < jabs ji then -ccur / ji
  else 0

/-- Running-constant update of claim C2's description: decrease by
`J'ᵢ²/(4λᵢ)` on a non-degenerate axis, reset to `0` on a parabolic axis. -/
def axisConst (lam ji ccur : ℚ) : ℚ :=
  if epsilon < jabs lam then ccur - ji * ji / (4 * lam)
  else if epsilon < jabs ji then 0
  else ccur

lemma csStep_S_self (ev Jp : Fin 3 → ℚ) (st : CSState) (i : Fin 3) :
    (csStep ev Jp st i).S i = axisShift (ev i) (Jp i) st.c1 := by
  unfold csStep axisShift
  split_ifs <;> simp_all [Function.update_same, not_lt]

lemma csStep_S_ne (ev Jp : Fin 3 → ℚ) (st : CSState) {i j : Fin 3} (h : j ≠ i) :
    (csStep ev Jp st i).S j = st.S j := by
  unfold csStep
  split_ifs <;> simp_all [Function.update_noteq h, not_lt]

lemma csStep_c1 (ev Jp : Fin 3 → ℚ) (st : CSState) (i : Fin 3) :
    (csStep ev Jp st i).c1 = axisConst (ev i) (Jp i) st.c1 := by
  unfold csStep axisConst
  split_ifs <;> simp_all

lemma csStep_lv (ev Jp : Fin 3 → ℚ) (st : CSState) (i : Fin 3) :
    (csStep ev Jp st i).linearVars =
      if jabs (ev i) ≤ epsilon ∧ epsilon < jabs (Jp i) then st.linearVars ++ [i]
      else st.linearVars := by
  unfold csStep
  split_ifs <;> simp_all [not_lt]
  linarith

lemma csOut_S0 (k : Coefficients) (eo : EigsOut) :
    (csOut k eo).S 0 = axisShift (evFun eo 0) (Jrot k eo 0) k.c := by
  unfold csOut completeSquare
  rw [csStep_S_ne _ _ _ (by decide), csStep_S_ne _ _ _ (by decide), csStep_S_self]

lemma csOut_S1 (k : Coefficients) (eo : EigsOut) :
    (csOut k eo).S 1 =
      axisShift (evFun eo 1) (Jrot k eo 1)
        (axisConst (evFun eo 0) (Jrot k eo 0) k.c) := by
  unfold csOut completeSquare
  rw [csStep_S_ne _ _ _ (by decide), csStep_S_self, csStep_c1]

lemma csOut_S2 (k : Coefficients) (eo : EigsOut) :
    (csOut k eo).S 2 =
      axisShift (evFun eo 2) (Jrot k eo 2)
        (axisConst (evFun eo 1) (Jrot k eo 1)
          (axisConst (evFun eo 0) (Jrot k eo 0) k.c)) := by
  unfold csOut completeSquare
  rw [csStep_S_self, csStep_c1, csStep_c1]

lemma csOut_c1 (k : Coefficients) (eo : EigsOut) :
    (csOut k eo).c1 =
      axisConst (evFun eo 2) (Jrot k eo 2)
        (axisConst (evFun eo 1) (Jrot k eo 1)
          (axisConst (evFun eo 0) (Jrot k eo 0) k.c)) := by
  unfold csOut completeSquare
  rw [csStep_c1, csStep_c1, csStep_c1]

lemma csOut_lv (k : Coefficients) (eo : EigsOut) :
    (csOut k eo).linearVars =
      List.filter
        (fun i => decide (jabs (evFun eo i) ≤ epsilon ∧ epsilon < jabs (Jrot k eo i)))
        [0, 1, 2] := by
  unfold csOut completeSquare
  rw [csStep_lv, csStep_lv, csStep_lv]
  by_cases h0 : jabs (evFun eo 0) ≤ epsilon ∧ epsilon < jabs (Jrot k eo 0) <;>
    by_cases h1 : jabs (evFun eo 1) ≤ epsilon ∧ epsilon < jabs (Jrot k eo 1) <;>
    by_cases h2 : jabs (evFun eo 2) ≤ epsilon ∧ epsilon < jabs (Jrot k eo 2) <;>
    simp [List.filter_cons, h0, h1, h2]

lemma csStep_v1_central (ev Jp : Fin 3 → ℚ) (st : CSState) (i : Fin 3)
    (h : epsilon < jabs (ev i)) :
    (csStep_v1 ev Jp st i).S i = -Jp i / ev i ∧
    (csStep_v1 ev Jp st i).c1 = st.c1 - Jp i * Jp i / ev i := by
  unfold csStep_v1
  rw [if_pos h]
  exact ⟨Function.update_same .., rfl⟩

lemma csStep_v1_parab (ev Jp : Fin 3 → ℚ) (st : CSState) (i : Fin 3)
    (h : jabs (ev i) ≤ epsilon) (h2 : epsilon < jabs (Jp i)) :
    (csStep_v1 ev Jp st i).S i = -st.c1 / (2 * Jp i) ∧
    (csStep_v1 ev Jp st i).c1 = 0 ∧
    (csStep_v1 ev Jp st i).linearVars = st.linearVars ++ [i] := by
  unfold csStep_v1
  rw [if_neg (not_lt.mpr h), if_pos h2]
  exact ⟨Function.update_same .., rfl, rfl⟩

/-- Claim C2: the completing-the-square loop over axes 0,1,2 computes the
shifts and running constant described by the claim (with `J' = MᵀJ`,
`ε = 1e-5`, `c'` initialized to `c`, parabolic axes flagged in index order),
the returned translation vector is `M·S`, and the first revision's loop uses
`-bᵢ/λ`, decrement `bᵢ²/λ` and parabolic shift `-c'/(2bᵢ)` instead. -/
theorem claim_C2 : ∀ (k : Coefficients) (eo : EigsOut),
    Jrot k eo = mulVec3 (transpose3 (rotM eo)) (Jvec k) ∧
    epsilon = 1 / 100000 ∧
    (csOut k eo).S 0 = axisShift (evFun eo 0) (Jrot k eo 0) k.c ∧
    (csOut k eo).S 1 =
      axisShift (evFun eo 1) (Jrot k eo 1)
        (axisConst (evFun eo 0) (Jrot k eo 0) k.c) ∧
    (csOut k eo).S 2 =
      axisShift (evFun eo 2) (Jrot k eo 2)
        (axisConst (evFun eo 1) (Jrot k eo 1)
          (axisConst (evFun eo 0) (Jrot k eo 0) k.c)) ∧
    (csOut k eo).c1 =
      axisConst (evFun eo 2) (Jrot k eo 2)
        (axisConst (evFun eo 1) (Jrot k eo 1)
          (axisConst (evFun eo 0) (Jrot k eo 0) k.c)) ∧
    (csOut k eo).linearVars =
      List.filter
        (fun i => decide (jabs (evFun eo i) ≤ epsilon ∧ epsilon < jabs (Jrot k eo i)))
        [0, 1, 2] ∧
    (analyzeSurface k eo).translationVector = mulVec3 (rotM eo) ((csOut k eo).S) ∧
    (∀ (ev Jp : Fin 3 → ℚ) (st : CSState) (i : Fin 3), epsilon < jabs (ev i) →
      (csStep_v1 ev Jp st i).S i = -Jp i / ev i ∧
      (csStep_v1 ev Jp st i).c1 = st.c1 - Jp i * Jp i / ev i) ∧
    (∀ (ev Jp : Fin 3 → ℚ) (st : CSState) (i : Fin 3),
      jabs (ev i) ≤ epsilon → epsilon < jabs (Jp i) →
      (csStep_v1 ev Jp st i).S i = -st.c1 / (2 * Jp i) ∧
      (csStep_v1 ev Jp st i).c1 = 0 ∧
      (csStep_v1 ev Jp st i).linearVars = st.linearVars ++ [i]) := by
  intro k eo
  exact ⟨rfl, rfl, csOut_S0 k eo, csOut_S1 k eo, csOut_S2 k eo, csOut_c1 k eo,
    csOut_lv k eo, rfl, csStep_v1_central, csStep_v1_parab⟩

theorem claim_C2_witness :
    epsilon < jabs ((![(1 : ℚ), 0, 0]) 0) ∧
    (csStep_v1 ![(1 : ℚ), 0, 0] ![(2 : ℚ), 0, 0] ⟨fun _ => 0, 5, []⟩ 0).S 0 =
      -(![(2 : ℚ), 0, 0]) 0 / (![(1 : ℚ), 0, 0]) 0 ∧
    (csStep_v1 ![(1 : ℚ), 0, 0] ![(2 : ℚ), 0, 0] ⟨fun _ => 0, 5, []⟩ 0).c1 =
      (⟨fun _ => 0, 5, []⟩ : CSState).c1 -
        (![(2 : ℚ), 0, 0]) 0 * (![(2 : ℚ), 0, 0]) 0 / (![(1 : ℚ), 0, 0]) 0 :=
  have h : epsilon < jabs ((![(1 : ℚ), 0, 0]) 0) := by with_unfolding_all decide
  have h2 := (claim_C2 ⟨0, 0, 0, 0, 0, 0, 0, 0, 0, 0⟩
    ⟨![0, 0, 0], Matrix.of fun _ _ => 0⟩).2.2.2.2.2.2.2.2.1
    ![(1 : ℚ), 0, 0] ![(2 : ℚ), 0, 0] ⟨fun _ => 0, 5, []⟩ 0 h
  ⟨h, h2.1, h2.2⟩

/-- Claim C7: the eigenvalues array is the value list of the sorted pair
triple, sorted descending, and ties keep the solver's native column order
(the sort is stable). -/
theorem claim_C7 : ∀ (k : Coefficients) (eo : EigsOut),
    (analyzeSurface k eo).eigenvalues =
      [(sortedPairs eo).1.val, (sortedPairs eo).2.1.val, (sortedPairs eo).2.2.val] ∧
    (sortedPairs eo).2.1.val ≤ (sortedPairs eo).1.val ∧
    (sortedPairs eo).2.2.val ≤ (sortedPairs eo).2.1.val ∧
    ((sortedPairs eo).1.val = (sortedPairs eo).2.1.val →
      (sortedPairs eo).1.idx < (sortedPairs eo).2.1.idx) ∧
    ((sortedPairs eo).2.1.val = (sortedPairs eo).2.2.val →
      (sortedPairs eo).2.1.idx < (sortedPairs eo).2.2.idx) ∧
    ((sortedPairs eo).1.val = (sortedPairs eo).2.2.val →
      (sortedPairs eo).1.idx < (sortedPairs eo).2.2.idx) := by
  intro k eo
  refine ⟨rfl, ?_⟩
  unfold sortedPairs sort3 mkPair
  split_ifs <;> dsimp only <;>
    refine ⟨by linarith, by linarith, fun hv => ?_, fun hv => ?_, fun hv => ?_⟩ <;>
    first | decide | linarith

theorem claim_C7_witness :
    (sortedPairs ⟨![5, 5, 5], Matrix.of fun _ _ => 0⟩).1.val =
      (sortedPairs ⟨![5, 5, 5], Matrix.of fun _ _ => 0⟩).2.1.val ∧
    (sortedPairs ⟨![5, 5, 5], Matrix.of fun _ _ => 0⟩).1.idx <
      (sortedPairs ⟨![5, 5, 5], Matrix.of fun _ _ => 0⟩).2.1.idx :=
  ⟨by with_unfolding_all decide,
   (claim_C7 ⟨0, 0, 0, 0, 0, 0, 0, 0, 0, 0⟩ ⟨![5, 5, 5], Matrix.of fun _ _ => 0⟩).2.2.2.1
     (by with_unfolding_all decide)⟩



/-- Orthonormality of the three eigenvector columns of a pair triple. -/
def OrthoTriple (a b c : EigPair) : Prop :=
  dot3 a.vec a.vec = 1 ∧ dot3 b.vec b.vec = 1 ∧ dot3 c.vec c.vec = 1 ∧
  dot3 a.vec b.vec = 0 ∧ dot3 b.vec a.vec = 0 ∧
  dot3 a.vec c.vec = 0 ∧ dot3 c.vec a.vec = 0 ∧
  dot3 b.vec c.vec = 0 ∧ dot3 c.vec b.vec = 0

lemma sort3_ortho (p0 p1 p2 : EigPair) (h : OrthoTriple p0 p1 p2) :
    OrthoTriple (sort3 p0 p1 p2).1 (sort3 p0 p1 p2).2.1 (sort3 p0 p1 p2).2.2 := by
  unfold OrthoTriple at *
  unfold sort3
  split_ifs <;> dsimp only <;> tauto

lemma det3_mul (A B : Matrix (Fin 3) (Fin 3) ℚ) :
    det3 (mul3 A B) = det3 A * det3 B := by
  simp only [det3, mul3, Matrix.of_apply]
  ring

lemma det3_transpose3 (A : Matrix (Fin 3) (Fin 3) ℚ) :
    det3 (transpose3 A) = det3 A := by
  simp only [det3, transpose3, Matrix.of_apply]
  ring

lemma det3_idMat3 : det3 idMat3 = 1 := by with_unfolding_all decide

lemma rawM_col0 (eo : EigsOut) (i : Fin 3) : rawM eo i 0 = (sortedPairs eo).1.vec i := rfl

lemma rawM_col1 (eo : EigsOut) (i : Fin 3) : rawM eo i 1 = (sortedPairs eo).2.1.vec i := rfl

lemma rawM_col2 (eo : EigsOut) (i : Fin 3) : rawM eo i 2 = (sortedPairs eo).2.2.vec i := rfl

lemma rawM_orthonormal (eo : EigsOut)
    (h : OrthoTriple (sortedPairs eo).1 (sortedPairs eo).2.1 (sortedPairs eo).2.2) :
    mul3 (transpose3 (rawM eo)) (rawM eo) = idMat3 := by
  obtain ⟨h1, h2, h3, h4, h5, h6, h7, h8, h9⟩ := h
  unfold dot3 at h1 h2 h3 h4 h5 h6 h7 h8 h9
  funext i j
  fin_cases i <;> fin_cases j
  · exact h1
  · exact h4
  · exact h6
  · exact h5
  · exact h2
  · exact h8
  · exact h7
  · exact h9
  · exact h3

lemma det3_pm (M : Matrix (Fin 3) (Fin 3) ℚ)
    (h : mul3 (transpose3 M) M = idMat3) : det3 M = 1 ∨ det3 M = -1 := by
  have h2 : det3 M * det3 M = 1 := by
    have h3 := congrArg det3 h
    rwa [det3_mul, det3_transpose3, det3_idMat3] at h3
  exact mul_self_eq_one_iff.mp h2

lemma det3_flipCol2 (M : Matrix (Fin 3) (Fin 3) ℚ) :
    det3 (flipCol2 M) = -det3 M := by
  simp only [det3, flipCol2, Matrix.of_apply]
  norm_num [Fin.ext_iff]
  ring

lemma flipCol2_orthonormal (M : Matrix (Fin 3) (Fin 3) ℚ)
    (h : mul3 (transpose3 M) M = idMat3) :
    mul3 (transpose3 (flipCol2 M)) (flipCol2 M) = idMat3 := by
  funext i j
  have hh : ∀ a b : Fin 3,
      M 0 a * M 0 b + M 1 a * M 1 b + M 2 a * M 2 b = (if a = b then (1 : ℚ) else 0) :=
    fun a b => congrFun (congrFun h a) b
  have e00 : M 0 0 * M 0 0 + M 1 0 * M 1 0 + M 2 0 * M 2 0 = 1 := by
    have t := hh 0 0; rwa [if_pos rfl] at t
  have e11 : M 0 1 * M 0 1 + M 1 1 * M 1 1 + M 2 1 * M 2 1 = 1 := by
    have t := hh 1 1; rwa [if_pos rfl] at t
  have e22 : M 0 2 * M 0 2 + M 1 2 * M 1 2 + M 2 2 * M 2 2 = 1 := by
    have t := hh 2 2; rwa [if_pos rfl] at t
  have e01 : M 0 0 * M 0 1 + M 1 0 * M 1 1 + M 2 0 * M 2 1 = 0 := by
    have t := hh 0 1; rwa [if_neg (by decide)] at t
  have e10 : M 0 1 * M 0 0 + M 1 1 * M 1 0 + M 2 1 * M 2 0 = 0 := by
    have t := hh 1 0; rwa [if_neg (by decide)] at t
  have e02 : M 0 0 * M 0 2 + M 1 0 * M 1 2 + M 2 0 * M 2 2 = 0 := by
    have t := hh 0 2; rwa [if_neg (by decide)] at t
  have e20 : M 0 2 * M 0 0 + M 1 2 * M 1 0 + M 2 2 * M 2 0 = 0 := by
    have t := hh 2 0; rwa [if_neg (by decide)] at t
  have e12 : M 0 1 * M 0 2 + M 1 1 * M 1 2 + M 2 1 * M 2 2 = 0 := by
    have t := hh 1 2; rwa [if_neg (by decide)] at t
  have e21 : M 0 2 * M 0 1 + M 1 2 * M 1 1 + M 2 2 * M 2 1 = 0 := by
    have t := hh 2 1; rwa [if_neg (by decide)] at t
  fin_cases i <;> fin_cases j
  · show M 0 0 * M 0 0 + M 1 0 * M 1 0 + M 2 0 * M 2 0 = (1 : ℚ)
    show _ = (1 : ℚ)
    linear_combination e00
  · show M 0 0 * M 0 1 + M 1 0 * M 1 1 + M 2 0 * M 2 1 = (0 : ℚ)
    show _ = (0 : ℚ)
    linear_combination e01
  · show M 0 0 * -(M 0 2) + M 1 0 * -(M 1 2) + M 2 0 * -(M 2 2) = (0 : ℚ)
    show _ = (0 : ℚ)
    linear_combination -e02
  · show M 0 1 * M 0 0 + M 1 1 * M 1 0 + M 2 1 * M 2 0 = (0 : ℚ)
    show _ = (0 : ℚ)
    linear_combination e10
  · show M 0 1 * M 0 1 + M 1 1 * M 1 1 + M 2 1 * M 2 1 = (1 : ℚ)
    show _ = (1 : ℚ)
    linear_combination e11
  · show M 0 1 * -(M 0 2) + M 1 1 * -(M 1 2) + M 2 1 * -(M 2 2) = (0 : ℚ)
    show _ = (0 : ℚ)
    linear_combination -e12
  · show -(M 0 2) * M 0 0 + -(M 1 2) * M 1 0 + -(M 2 2) * M 2 0 = (0 : ℚ)
    show _ = (0 : ℚ)
    linear_combination -e20
  · show -(M 0 2) * M 0 1 + -(M 1 2) * M 1 1 + -(M 2 2) * M 2 1 = (0 : ℚ)
    show _ = (0 : ℚ)
    linear_combination -e21
  · show -(M 0 2) * -(M 0 2) + -(M 1 2) * -(M 1 2) + -(M 2 2) * -(M 2 2) = (1 : ℚ)
    show _ = (1 : ℚ)
    linear_combination e22

/-- Claim C6: assuming the eigensolver returns orthonormal eigenvector
columns, the rotation matrix is in SO(3). -/
theorem claim_C6 : ∀ (k : Coefficients) (eo : EigsOut),
    (∀ j l : Fin 3, dot3 (fun r => eo.vectors r j) (fun r => eo.vectors r l) =
      if j = l then 1 else 0) →
    (analyzeSurface k eo).rotationMatrix = rotM eo ∧
    mul3 (transpose3 (rotM eo)) (rotM eo) = idMat3 ∧
    det3 (rotM eo) = 1 ∧
    (∀ i, rotM eo i 0 = rawM eo i 0) ∧
    (∀ i, rotM eo i 1 = rawM eo i 1) ∧
    (∀ i, rotM eo i 2 = if det3 (rawM eo) < 0 then -(rawM eo i 2) else rawM eo i 2) := by
  intro k eo h
  have hOT : OrthoTriple (mkPair eo 0) (mkPair eo 1) (mkPair eo 2) := by
    refine ⟨?_, ?_, ?_, ?_, ?_, ?_, ?_, ?_, ?_⟩
    · have t := h 0 0; rwa [if_pos rfl] at t
    · have t := h 1 1; rwa [if_pos rfl] at t
    · have t := h 2 2; rwa [if_pos rfl] at t
    · have t := h 0 1; rwa [if_neg (by decide)] at t
    · have t := h 1 0; rwa [if_neg (by decide)] at t
    · have t := h 0 2; rwa [if_neg (by decide)] at t
    · have t := h 2 0; rwa [if_neg (by decide)] at t
    · have t := h 1 2; rwa [if_neg (by decide)] at t
    · have t := h 2 1; rwa [if_neg (by decide)] at t
  have hOT2 := sort3_ortho _ _ _ hOT
  have hOn : mul3 (transpose3 (rawM eo)) (rawM eo) = idMat3 := rawM_orthonormal eo hOT2
  have hpm := det3_pm _ hOn
  by_cases hneg : det3 (rawM eo) < 0
  · have hM : rotM eo = flipCol2 (rawM eo) := by unfold rotM; rw [if_pos hneg]
    have hdet : det3 (rawM eo) = -1 := by
      rcases hpm with h1 | h1
      · exfalso; rw [h1] at hneg; norm_num at hneg
      · exact h1
    refine ⟨rfl, ?_, ?_, ?_, ?_, ?_⟩
    · rw [hM]; exact flipCol2_orthonormal _ hOn
    · rw [hM, det3_flipCol2, hdet]; norm_num
    · intro i; rw [hM]; rfl
    · intro i; rw [hM]; rfl
    · intro i; rw [hM, if_pos hneg]; rfl
  · have hM : rotM eo = rawM eo := by unfold rotM; rw [if_neg hneg]
    have hdet : det3 (rawM eo) = 1 := by
      rcases hpm with h1 | h1
      · exact h1
      · exfalso; apply hneg; rw [h1]; norm_num
    refine ⟨rfl, ?_, ?_, fun i => by rw [hM], fun i => by rw [hM], ?_⟩
    · rw [hM]; exact hOn
    · rw [hM]; exact hdet
    · intro i; rw [hM, if_neg hneg]

theorem claim_C6_witness :
    (∀ j l : Fin 3, dot3 (fun r => (⟨![3, 2, 1], idMat3⟩ : EigsOut).vectors r j)
        (fun r => (⟨![3, 2, 1], idMat3⟩ : EigsOut).vectors r l) =
      if j = l then (1 : ℚ) else 0) ∧
    det3 (rotM ⟨![3, 2, 1], idMat3⟩) = 1 ∧
    mul3 (transpose3 (rotM ⟨![3, 2, 1], idMat3⟩)) (rotM ⟨![3, 2, 1], idMat3⟩) = idMat3 :=
  have h : ∀ j l : Fin 3, dot3 (fun r => (⟨![3, 2, 1], idMat3⟩ : EigsOut).vectors r j)
      (fun r => (⟨![3, 2, 1], idMat3⟩ : EigsOut).vectors r l) =
      if j = l then (1 : ℚ) else 0 := by with_unfolding_all decide
  ⟨h, (claim_C6 ⟨0, 0, 0, 0, 0, 0, 0, 0, 0, 0⟩ ⟨![3, 2, 1], idMat3⟩ h).2.2.1,
    (claim_C6 ⟨0, 0, 0, 0, 0, 0, 0, 0, 0, 0⟩ ⟨![3, 2, 1], idMat3⟩ h).2.1⟩

lemma sort3_mem (p0 p1 p2 : EigPair) :
    ((sort3 p0 p1 p2).1 = p0 ∨ (sort3 p0 p1 p2).1 = p1 ∨ (sort3 p0 p1 p2).1 = p2) ∧
    ((sort3 p0 p1 p2).2.1 = p0 ∨ (sort3 p0 p1 p2).2.1 = p1 ∨ (sort3 p0 p1 p2).2.1 = p2) ∧
    ((sort3 p0 p1 p2).2.2 = p0 ∨ (sort3 p0 p1 p2).2.2 = p1 ∨ (sort3 p0 p1 p2).2.2 = p2) := by
  unfold sort3
  split_ifs <;> simp

lemma Jrot_eq_zero (k : Coefficients) (eo : EigsOut)
    (h1 : k.b1 = 0) (h2 : k.b2 = 0) (h3 : k.b3 = 0) :
    Jrot k eo = fun _ => 0 := by
  funext i
  simp [Jrot, mulVec3, Jvec, h1, h2, h3]

lemma axisConst_zero_ji (lam ccur : ℚ) : axisConst lam 0 ccur = ccur := by
  unfold axisConst
  split_ifs with h1 h2
  · ring
  · exfalso; norm_num [jabs, epsilon] at h2
  · rfl

lemma csOut_c1_of_zero_Jrot (k : Coefficients) (eo : EigsOut)
    (hJ : Jrot k eo = fun _ => 0) : (csOut k eo).c1 = k.c := by
  rw [csOut_c1, hJ]
  simp only [axisConst_zero_ji]

lemma csOut_lv_of_zero_Jrot (k : Coefficients) (eo : EigsOut)
    (hJ : Jrot k eo = fun _ => 0) : (csOut k eo).linearVars = [] := by
  rw [csOut_lv, hJ]
  norm_num [List.filter, jabs, epsilon]

lemma sortedVal_mem (eo : EigsOut) :
    ((sortedPairs eo).1.val = eo.values 0 ∨ (sortedPairs eo).1.val = eo.values 1 ∨
      (sortedPairs eo).1.val = eo.values 2) ∧
    ((sortedPairs eo).2.1.val = eo.values 0 ∨ (sortedPairs eo).2.1.val = eo.values 1 ∨
      (sortedPairs eo).2.1.val = eo.values 2) ∧
    ((sortedPairs eo).2.2.val = eo.values 0 ∨ (sortedPairs eo).2.2.val = eo.values 1 ∨
      (sortedPairs eo).2.2.val = eo.values 2) := by
  obtain ⟨m1, m2, m3⟩ := sort3_mem (mkPair eo 0) (mkPair eo 1) (mkPair eo 2)
  refine ⟨?_, ?_, ?_⟩
  · rcases m1 with h | h | h <;> rw [show (sortedPairs eo).1 = _ from h] <;> simp [mkPair]
  · rcases m2 with h | h | h <;> rw [show (sortedPairs eo).2.1 = _ from h] <;> simp [mkPair]
  · rcases m3 with h | h | h <;> rw [show (sortedPairs eo).2.2 = _ from h] <;> simp [mkPair]

lemma rankOf_three (a b c : ℚ) (pa : epsilon < jabs a) (pb : epsilon < jabs b)
    (pc : epsilon < jabs c) : rankOf [a, b, c] = 3 := by
  simp [rankOf, List.filter, pa, pb, pc]

lemma rankOf_zero (a b c : ℚ) (pa : ¬ epsilon < jabs a) (pb : ¬ epsilon < jabs b)
    (pc : ¬ epsilon < jabs c) : rankOf [a, b, c] = 0 := by
  simp [rankOf, List.filter, pa, pb, pc]

/-- The degenerate-cone scenario input. -/
def coneInput : Coefficients := ⟨1, 1, -1, 0, 0, 0, 0, 0, 0, 0⟩

/-- The all-zero scenario input. -/
def zeroInput : Coefficients := ⟨0, 0, 0, 0, 0, 0, 0, 0, 0, 0⟩

/-- Claim C3: with no parabolic axis and rank 3, the surface type is the
cone / ellipsoid / hyperboloid family decided by `|c'|` and the count of
eigenvalues whose sign matches `-c'`; the degenerate-cone input gives
"Cone (Real or Imaginary)" and a point center for any solver output whose
eigenvalues are the true ones (each ±1). -/
theorem claim_C3 :
    (∀ (k : Coefficients) (eo : EigsOut),
      (csOut k eo).linearVars = [] →
      rankOf (sortedVals eo) = 3 →
      (analyzeSurface k eo).surfaceType =
        if jabs (csOut k eo).c1 < epsilon then "Cone (Real or Imaginary)"
        else if sameSignCount (sortedVals eo) (-(csOut k eo).c1) = 3 then "Ellipsoid"
        else if sameSignCount (sortedVals eo) (-(csOut k eo).c1) = 2 then
          "Hyperboloid of One Sheet"
        else if sameSignCount (sortedVals eo) (-(csOut k eo).c1) = 1 then
          "Hyperboloid of Two Sheets"
        else "Imaginary Ellipsoid") ∧
    (∀ eo : EigsOut, (∀ i, eo.values i = 1 ∨ eo.values i = -1) →
      (analyzeSurface coneInput eo).surfaceType = "Cone (Real or Imaginary)" ∧
      (analyzeSurface coneInput eo).centerType = CenterType.Point) := by
  constructor
  · intro k eo hlv hrank
    show classify (sortedVals eo) (csOut k eo).linearVars (csOut k eo).c1 = _
    rw [hlv]
    unfold classify
    rw [if_neg (by norm_num), if_pos hrank]
  · intro eo h
    have hJ : Jrot coneInput eo = fun _ => 0 := Jrot_eq_zero _ _ rfl rfl rfl
    have hc : (csOut coneInput eo).c1 = 0 := csOut_c1_of_zero_Jrot _ _ hJ
    have hlv : (csOut coneInput eo).linearVars = [] := csOut_lv_of_zero_Jrot _ _ hJ
    obtain ⟨m1, m2, m3⟩ := sortedVal_mem eo
    have pm : ∀ v : ℚ, v = 1 ∨ v = -1 → epsilon < jabs v := by
      rintro v (rfl | rfl) <;> norm_num [jabs, epsilon]
    have p1 : epsilon < jabs (sortedPairs eo).1.val := by
      rcases m1 with h' | h' | h' <;> rw [h'] <;> exact pm _ (h _)
    have p2 : epsilon < jabs (sortedPairs eo).2.1.val := by
      rcases m2 with h' | h' | h' <;> rw [h'] <;> exact pm _ (h _)
    have p3 : epsilon < jabs (sortedPairs eo).2.2.val := by
      rcases m3 with h' | h' | h' <;> rw [h'] <;> exact pm _ (h _)
    have hrank : rankOf (sortedVals eo) = 3 := rankOf_three _ _ _ p1 p2 p3
    constructor
    · show classify (sortedVals eo) (csOut coneInput eo).linearVars
        (csOut coneInput eo).c1 = _
      rw [hlv, hc]
      unfold classify
      rw [if_neg (by norm_num), if_pos hrank, if_pos (by norm_num [jabs, epsilon])]
    · show (if 0 < (csOut coneInput eo).linearVars.length then CenterType.None
        else if rankOf (sortedVals eo) = 3 then CenterType.Point else CenterType.Line) = _
      rw [hlv, hrank]
      norm_num

theorem claim_C3_witness :
    ((∀ i, (⟨![1, 1, -1], idMat3⟩ : EigsOut).values i = 1 ∨
        (⟨![1, 1, -1], idMat3⟩ : EigsOut).values i = -1) ∧
      (analyzeSurface coneInput ⟨![1, 1, -1], idMat3⟩).surfaceType =
        "Cone (Real or Imaginary)" ∧
      (analyzeSurface coneInput ⟨![1, 1, -1], idMat3⟩).centerType = CenterType.Point) :=
  have h : ∀ i, (⟨![1, 1, -1], idMat3⟩ : EigsOut).values i = 1 ∨
      (⟨![1, 1, -1], idMat3⟩ : EigsOut).values i = -1 := by with_unfolding_all decide
  ⟨h, claim_C3.2 ⟨![1, 1, -1], idMat3⟩ h⟩

/-- Claim C8: the center type is "None" when an axis is parabolic, else
"Point" at rank 3, else "Line"; "Plane" and "Unknown" are never produced;
the all-zero input has rank 0, no parabolic axis, center "Line" and surface
type "General Quadric". -/
theorem claim_C8 : ∀ (k : Coefficients) (eo : EigsOut),
    ((analyzeSurface k eo).centerType =
      if (csOut k eo).linearVars ≠ [] then CenterType.None
      else if rankOf (sortedVals eo) = 3 then CenterType.Point
      else CenterType.Line) ∧
    (analyzeSurface k eo).centerType ≠ CenterType.Plane ∧
    (analyzeSurface k eo).centerType ≠ CenterType.Unknown ∧
    (∀ eo2 : EigsOut, (∀ i, eo2.values i = 0) →
      rankOf (sortedVals eo2) = 0 ∧
      (csOut zeroInput eo2).linearVars = [] ∧
      (analyzeSurface zeroInput eo2).centerType = CenterType.Line ∧
      (analyzeSurface zeroInput eo2).surfaceType = "General Quadric") := by
  intro k eo
  have hCT : (analyzeSurface k eo).centerType =
      if (csOut k eo).linearVars ≠ [] then CenterType.None
      else if rankOf (sortedVals eo) = 3 then CenterType.Point
      else CenterType.Line := by
    show (if 0 < (csOut k eo).linearVars.length then CenterType.None
      else if rankOf (sortedVals eo) = 3 then CenterType.Point else CenterType.Line) = _
    rcases List.eq_nil_or_concat (csOut k eo).linearVars with hn | ⟨l, a, hn⟩
    · rw [hn]; norm_num
    · rw [if_pos (by rw [hn]; simp), if_pos (by rw [hn]; simp)]
  refine ⟨hCT, ?_, ?_, ?_⟩
  · rw [hCT]; split_ifs <;> simp
  · rw [hCT]; split_ifs <;> simp
  · intro eo2 h
    have hJ : Jrot zeroInput eo2 = fun _ => 0 := Jrot_eq_zero _ _ rfl rfl rfl
    have hlv : (csOut zeroInput eo2).linearVars = [] := csOut_lv_of_zero_Jrot _ _ hJ
    obtain ⟨m1, m2, m3⟩ := sortedVal_mem eo2
    have pm : ∀ v : ℚ, v = 0 → ¬ epsilon < jabs v := by
      rintro v rfl; norm_num [jabs, epsilon]
    have p1 : ¬ epsilon < jabs (sortedPairs eo2).1.val := by
      rcases m1 with h' | h' | h' <;> rw [h'] <;> exact pm _ (h _)
    have p2 : ¬ epsilon < jabs (sortedPairs eo2).2.1.val := by
      rcases m2 with h' | h' | h' <;> rw [h'] <;> exact pm _ (h _)
    have p3 : ¬ epsilon < jabs (sortedPairs eo2).2.2.val := by
      rcases m3 with h' | h' | h' <;> rw [h'] <;> exact pm _ (h _)
    have hrank : rankOf (sortedVals eo2) = 0 := rankOf_zero _ _ _ p1 p2 p3
    refine ⟨hrank, hlv, ?_, ?_⟩
    · show (if 0 < (csOut zeroInput eo2).linearVars.length then CenterType.None
        else if rankOf (sortedVals eo2) = 3 then CenterType.Point
        else CenterType.Line) = _
      rw [hlv, hrank]
      norm_num
    · show classify (sortedVals eo2) (csOut zeroInput eo2).linearVars
        (csOut zeroInput eo2).c1 = _
      rw [hlv]
      unfold classify
      rw [if_neg (by norm_num), if_neg (by rw [hrank]; norm_num),
        if_neg (by rw [hrank]; norm_num), if_neg (by rw [hrank]; norm_num)]

theorem claim_C8_witness :
    ((∀ i, (⟨![0, 0, 0], idMat3⟩ : EigsOut).values i = 0) ∧
      (analyzeSurface zeroInput ⟨![0, 0, 0], idMat3⟩).centerType = CenterType.Line ∧
      (analyzeSurface zeroInput ⟨![0, 0, 0], idMat3⟩).surfaceType = "General Quadric") :=
  have h : ∀ i, (⟨![0, 0, 0], idMat3⟩ : EigsOut).values i = 0 := by
    with_unfolding_all decide
  ⟨h, ((claim_C8 zeroInput ⟨![0, 0, 0], idMat3⟩).2.2.2 ⟨![0, 0, 0], idMat3⟩ h).2.2⟩

/-- Modelled from the claim C4 wording: render the `n`-th emitted term of an
entry list (value, body): sign `-` if the value is negative, `+` if it is
not the first emitted term, absent otherwise. -/
def renderAux : ℕ → List (ℚ × String) → List String
  | _, [] => []
  | n, e :: es =>
    ((if e.1 < 0 then "-" else if 0 < n then "+" else "") ++ (" " ++ e.2)) ::
      renderAux (n + 1) es

/-- Modelled from the claim C4 wording: the entry contributed by one axis
with `|λ| > ε` (value `λ`, body `[coef]var^2` with coefficient 1 elided). -/
def quadEntry (lam : ℚ) (v : String) : List (ℚ × String) :=
  if epsilon < jabs lam then
    [(lam,
      (if jabs (jabs lam - 1) < 1 / 10000 then "" else toFixed 2 (jabs lam)) ++
        (v ++ "^2"))]
  else []

/-- Modelled from the claim C4 wording: quadratic entries in axis order, then
one entry per parabolic axis, then the constant entry when `|c'| > ε`. -/
def specEntries (ev Jp : Fin 3 → ℚ) (lv : List (Fin 3)) (c1 : ℚ) :
    List (ℚ × String) :=
  (quadEntry (ev 0) (varName 0) ++ quadEntry (ev 1) (varName 1) ++
      quadEntry (ev 2) (varName 2)) ++
    lv.map (fun idx => (Jp idx, toFixed 2 (jabs (Jp idx)) ++ varName idx)) ++
    (if epsilon < jabs c1 then [(c1, toFixed 2 (jabs c1))] else [])

/-- Modelled from the claim C4 wording: the standard form is the rendered,
space-joined entry list with " = 0" appended, or "0 = 0" with no entries. -/
def specStandardForm (ev Jp : Fin 3 → ℚ) (lv : List (Fin 3)) (c1 : ℚ) : String :=
  if specEntries ev Jp lv c1 = [] then "0 = 0"
  else (String.intercalate " " (renderAux 0 (specEntries ev Jp lv c1))).trim ++ " = 0"

/-- Appending one rendered entry to the term list. -/
def emitTerm (t : List String) (e : ℚ × String) : List String :=
  t ++ [(if e.1 < 0 then "-" else if 0 < t.length then "+" else "") ++ (" " ++ e.2)]

lemma emit_eq (es : List (ℚ × String)) :
    ∀ t, es.foldl emitTerm t = t ++ renderAux t.length es := by
  induction es with
  | nil => intro t; simp [renderAux]
  | cons e es ih =>
    intro t
    rw [List.foldl_cons, ih]
    simp [emitTerm, renderAux]

lemma renderAux_length (es : List (ℚ × String)) :
    ∀ n, (renderAux n es).length = es.length := by
  induction es with
  | nil => intro n; rfl
  | cons e es ih => intro n; simp [renderAux, ih]

lemma pushQuad_emit (t : List String) (lam : ℚ) (v : String) :
    pushQuad t lam v = (quadEntry lam v).foldl emitTerm t := by
  unfold pushQuad quadEntry
  split_ifs <;> simp only [emitTerm, List.foldl] <;> split_ifs <;> rfl

lemma pushLin_fold_emit (Jp : Fin 3 → ℚ) (lv : List (Fin 3)) :
    ∀ t, lv.foldl (pushLin Jp) t =
      (lv.map fun idx => ((Jp idx, toFixed 2 (jabs (Jp idx)) ++ varName idx) : ℚ × String)).foldl
        emitTerm t := by
  induction lv with
  | nil => intro t; rfl
  | cons a lv ih =>
    intro t
    rw [List.map_cons, List.foldl_cons, List.foldl_cons, ih]
    rfl

lemma pushConst_emit (t : List String) (c1 : ℚ) :
    pushConst t c1 =
      (if epsilon < jabs c1 then [((c1 : ℚ), toFixed 2 (jabs c1))] else []).foldl
        emitTerm t := by
  unfold pushConst
  split_ifs <;> simp only [emitTerm, List.foldl] <;> split_ifs <;> rfl

lemma buildTerms_eq (ev Jp : Fin 3 → ℚ) (lv : List (Fin 3)) (c1 : ℚ) :
    buildTerms ev Jp lv c1 = renderAux 0 (specEntries ev Jp lv c1) := by
  unfold buildTerms specEntries
  rw [pushQuad_emit, pushQuad_emit, pushQuad_emit, pushLin_fold_emit, pushConst_emit]
  rw [← List.foldl_append, ← List.foldl_append, ← List.foldl_append, ← List.foldl_append]
  rw [emit_eq]
  simp

/-- The unit-sphere scenario input. -/
def sphereInput : Coefficients := ⟨1, 1, 1, 0, 0, 0, 0, 0, 0, -1⟩

/-- Claim C4: the standardForm built by the code equals the spec-worded
construction (quadratic terms in axis order, then parabolic linear terms,
then the constant; sign rules and "0 = 0" / " = 0" handling), and the unit
sphere renders exactly as claimed for any solver output returning the true
eigenvalues (all 1). -/
theorem claim_C4 :
    (∀ (ev Jp : Fin 3 → ℚ) (lv : List (Fin 3)) (c1 : ℚ),
      renderForm ev Jp lv c1 = specStandardForm ev Jp lv c1) ∧
    (∀ eo : EigsOut, (∀ i, eo.values i = 1) →
      (analyzeSurface sphereInput eo).standardForm =
        "x\x27^2 + y\x27^2 + z\x27^2 - 1.00 = 0") := by
  constructor
  · intro ev Jp lv c1
    unfold renderForm specStandardForm
    rw [buildTerms_eq]
    by_cases he : specEntries ev Jp lv c1 = []
    · rw [he]
      simp [renderAux]
    · rw [if_neg he, if_neg ?_]
      rw [renderAux_length]
      intro hlen
      exact he (List.length_eq_zero.mp hlen)
  · intro eo h
    have hJ : Jrot sphereInput eo = fun _ => 0 := Jrot_eq_zero _ _ rfl rfl rfl
    have hc : (csOut sphereInput eo).c1 = sphereInput.c := csOut_c1_of_zero_Jrot _ _ hJ
    have hlv : (csOut sphereInput eo).linearVars = [] := csOut_lv_of_zero_Jrot _ _ hJ
    have hev : evFun eo = ![1, 1, 1] := by
      obtain ⟨m1, m2, m3⟩ := sortedVal_mem eo
      funext i
      fin_cases i
      · show (sortedPairs eo).1.val = 1
        rcases m1 with h' | h' | h' <;> rw [h'] <;> exact h _
      · show (sortedPairs eo).2.1.val = 1
        rcases m2 with h' | h' | h' <;> rw [h'] <;> exact h _
      · show (sortedPairs eo).2.2.val = 1
        rcases m3 with h' | h' | h' <;> rw [h'] <;> exact h _
    show renderForm (evFun eo) (Jrot sphereInput eo) (csOut sphereInput eo).linearVars
      (csOut sphereInput eo).c1 = _
    rw [hev, hJ, hlv, hc]
    with_unfolding_all decide

theorem claim_C4_witness :
    ((∀ i, (⟨![1, 1, 1], idMat3⟩ : EigsOut).values i = 1) ∧
      (analyzeSurface sphereInput ⟨![1, 1, 1], idMat3⟩).standardForm =
        "x\x27^2 + y\x27^2 + z\x27^2 - 1.00 = 0") :=
  have h : ∀ i, (⟨![1, 1, 1], idMat3⟩ : EigsOut).values i = 1 := by
    with_unfolding_all decide
  ⟨h, claim_C4.2 ⟨![1, 1, 1], idMat3⟩ h⟩

/-- The polynomial `a11 x² + a22 y² + a33 z² + a12 xy + a23 yz + a13 xz +
b1 x + b2 y + b3 z + c` defined by the input coefficients (src/types.ts
comment and part_000 line 189). -/
def inputPoly (k : Coefficients) (x : Fin 3 → ℚ) : ℚ :=
  k.a11 * x 0 * x 0 + k.a22 * x 1 * x 1 + k.a33 * x 2 * x 2
    + k.a12 * x 0 * x 1 + k.a23 * x 1 * x 2 + k.a13 * x 0 * x 2
    + k.b1 * x 0 + k.b2 * x 1 + k.b3 * x 2 + k.c

/-! ## Claim theorems -/

/-- Claim C1: `analyzeSurface` builds the symmetric matrix `A` with diagonal
`a11, a22, a33` and halved cross coefficients off the diagonal, and the
linear vector `J = [b1, b2, b3]`, so that `xᵀAx + Jᵀx + c` equals the input
polynomial; the first revision of `analyzeSurface` instead places the full
cross coefficients on the off-diagonals. -/
theorem claim_C1 : ∀ (k : Coefficients) (x : Fin 3 → ℚ),
    buildA k 0 0 = k.a11 ∧ buildA k 1 1 = k.a22 ∧ buildA k 2 2 = k.a33 ∧
    buildA k 0 1 = k.a12 / 2 ∧ buildA k 1 0 = k.a12 / 2 ∧
    buildA k 1 2 = k.a23 / 2 ∧ buildA k 2 1 = k.a23 / 2 ∧
    buildA k 0 2 = k.a13 / 2 ∧ buildA k 2 0 = k.a13 / 2 ∧
    (∀ i j, buildA k i j = buildA k j i) ∧
    Jvec k 0 = k.b1 ∧ Jvec k 1 = k.b2 ∧ Jvec k 2 = k.b3 ∧
    dot3 x (mulVec3 (buildA k) x) + dot3 (Jvec k) x + k.c = inputPoly k x ∧
    buildA_v1 k 0 1 = k.a12 ∧ buildA_v1 k 1 0 = k.a12 ∧
    buildA_v1 k 1 2 = k.a23 ∧ buildA_v1 k 2 1 = k.a23 ∧
    buildA_v1 k 0 2 = k.a13 ∧ buildA_v1 k 2 0 = k.a13 := by
  intro k x
  refine ⟨rfl, rfl, rfl, rfl, rfl, rfl, rfl, rfl, rfl, ?_, rfl, rfl, rfl, ?_,
    rfl, rfl, rfl, rfl, rfl, rfl⟩
  · intro i j
    fin_cases i <;> fin_cases j <;> rfl
  · simp only [buildA, Jvec, inputPoly, dot3, mulVec3, Matrix.cons_val_zero,
      Matrix.cons_val_one, Matrix.cons_val_two, Matrix.head_cons, Matrix.tail_cons,
      Matrix.head_fin_const, Matrix.of_apply, Matrix.cons_val_fin_one]
    ring

/-- Claim C5: the Smart Numeric Formatter, applied to the floating-point
values of 0, 1, -3, 0.5, -0.25, 2/3, √2 and 3√5/7 (the irrational ones as
the exact rationals the IEEE-754 doubles denote), returns exactly the
claimed strings via its first-match ladder. -/
theorem claim_C5 :
    formatSmart 0 = "0" ∧ formatSmart 1 = "1" ∧ formatSmart (-3) = "-3" ∧
    formatSmart (1 / 2) = "1/2" ∧ formatSmart (-1 / 4) = "-1/4" ∧
    formatSmart twoThirdsD = "2/3" ∧ formatSmart sqrtTwoD = "√2" ∧
    formatSmart threeSqrtFiveOverSevenD = "3√5/7" := by
  with_unfolding_all decide

lemma toString_nat_length_pos (n : ℕ) : 0 < (toString n).length := by
  show 0 < (Nat.repr n).length
  rw [Nat.repr, List.length_asString]
  rw [Nat.toDigits]
  rw [Nat.toDigitsCore]
  split
  · simp
  · rw [Nat.toDigitsCore_lens_eq]
    omega

lemma length_append_three (a b c : String) :
    (a ++ b ++ c).length = a.length + b.length + c.length := by
  simp [String.length_append]

lemma fracSearch_some_length (sign : String) (absVal : ℚ) (qs : List ℕ) (s : String) :
    fracSearch sign absVal qs = some s → 0 < s.length := by
  induction qs with
  | nil => intro h; simp [fracSearch] at h
  | cons q qs ih =>
    intro h
    rw [fracSearch] at h
    dsimp only at h
    split_ifs at h
    · simp only [Option.some.injEq] at h
      subst h
      have h2 : 0 < "/".length := by decide
      simp [String.length_append, toString_nat_length_pos, h2]
    · exact ih h

lemma radSearch_some_length (sign : String) (sq : ℚ) (qs : List ℕ) (s : String) :
    radSearch sign sq qs = some s → 0 < s.length := by
  induction qs with
  | nil => intro h; simp [radSearch] at h
  | cons q qs ih =>
    intro h
    rw [radSearch] at h
    dsimp only at h
    split_ifs at h <;>
      first
        | exact ih h
        | (simp only [Option.some.injEq] at h
           subst h
           have h1 : 0 < "√".length := by decide
           have h2 : 0 < "/".length := by decide
           simp [String.length_append, toString_nat_length_pos, h1, h2])




lemma jabs_nonneg (x : ℚ) : 0 ≤ jabs x := by
  unfold jabs
  split_ifs <;> linarith

lemma jabs_of_nonneg {x : ℚ} (h : 0 ≤ x) : jabs x = x := by
  unfold jabs
  rw [if_neg (not_lt.mpr h)]

lemma toFixed_length_pos (f : ℕ) (x : ℚ) : 0 < (toFixed f x).length := by
  unfold toFixed
  dsimp only
  have hd : 0 < ".".length := by decide
  split_ifs <;> simp [String.length_append, hd]

/-- Claim C9: the formatter always returns a nonempty string, and when the
zero test, integer test, fraction search and radical search all fail, it
returns the 4-decimal fallback. -/
theorem claim_C9 : ∀ v : ℚ,
    0 < (formatSmart v).length ∧
    (¬ jabs v < ABS_TOLERANCE →
      ¬ jabs (jabs v - (jround (jabs v) : ℚ)) < ABS_TOLERANCE →
      fracSearch (if v < 0 then "-" else "") (jabs v) (List.range' 2 49) = none →
      radSearch (if v < 0 then "-" else "") (jabs v * jabs v) (List.range' 1 100) = none →
      formatSmart v = toFixed 4 v) := by
  intro v
  constructor
  · unfold formatSmart
    dsimp only
    by_cases h1 : jabs v < ABS_TOLERANCE
    · rw [if_pos h1]; decide
    · rw [if_neg h1]
      by_cases h2 : jabs (jabs v - (jround (jabs v) : ℚ)) < ABS_TOLERANCE
      · rw [if_pos h2]
        simp [String.length_append, toString_nat_length_pos]
      · rw [if_neg h2]
        rcases hfs : fracSearch (if v < 0 then "-" else "") (jabs v) (List.range' 2 49)
          with _ | s
        · rcases hrs : radSearch (if v < 0 then "-" else "") (jabs v * jabs v)
            (List.range' 1 100) with _ | s
          · exact toFixed_length_pos 4 v
          · exact radSearch_some_length _ _ _ _ hrs
        · exact fracSearch_some_length _ _ _ _ hfs
  · intro h1 h2 h3 h4
    unfold formatSmart
    dsimp only
    rw [if_neg h1, if_neg h2, h3, h4]





theorem claim_C9_witness :
    (¬ jabs (617 / 5000 : ℚ) < ABS_TOLERANCE) ∧
    (¬ jabs (jabs (617 / 5000 : ℚ) - (jround (jabs (617 / 5000 : ℚ)) : ℚ)) < ABS_TOLERANCE) ∧
    fracSearch (if (617 / 5000 : ℚ) < 0 then "-" else "") (jabs (617 / 5000 : ℚ))
      (List.range' 2 49) = none ∧
    radSearch (if (617 / 5000 : ℚ) < 0 then "-" else "")
      (jabs (617 / 5000 : ℚ) * jabs (617 / 5000 : ℚ)) (List.range' 1 100) = none ∧
    0 < (formatSmart (617 / 5000 : ℚ)).length ∧
    formatSmart (617 / 5000 : ℚ) = toFixed 4 (617 / 5000 : ℚ) :=
  have h1 : ¬ jabs (617 / 5000 : ℚ) < ABS_TOLERANCE := by with_unfolding_all decide
  have h2 : ¬ jabs (jabs (617 / 5000 : ℚ) - (jround (jabs (617 / 5000 : ℚ)) : ℚ)) <
      ABS_TOLERANCE := by with_unfolding_all decide
  have h3 : fracSearch (if (617 / 5000 : ℚ) < 0 then "-" else "") (jabs (617 / 5000 : ℚ))
      (List.range' 2 49) = none := by with_unfolding_all decide
  have h4 : radSearch (if (617 / 5000 : ℚ) < 0 then "-" else "")
      (jabs (617 / 5000 : ℚ) * jabs (617 / 5000 : ℚ)) (List.range' 1 100) = none := by
    with_unfolding_all decide
  ⟨h1, h2, h3, h4, (claim_C9 (617 / 5000 : ℚ)).1,
    (claim_C9 (617 / 5000 : ℚ)).2 h1 h2 h3 h4⟩

lemma fracSearch_none_of_small (sign : String) (a : ℚ)
    (ha : ABS_TOLERANCE ≤ a) (hb : a < 1 / 100) :
    ∀ qs : List ℕ, (∀ q ∈ qs, 2 ≤ q ∧ q ≤ 50) → fracSearch sign a qs = none := by
  intro qs
  induction qs with
  | nil => intro _; rfl
  | cons q qs ih =>
    intro hqs
    obtain ⟨hq2, hq50⟩ := hqs q (by simp)
    have hq2' : (2 : ℚ) ≤ (q : ℚ) := by exact_mod_cast hq2
    have hq50' : ((q : ℕ) : ℚ) ≤ 50 := by exact_mod_cast hq50
    have hT : (0 : ℚ) < ABS_TOLERANCE := by norm_num [ABS_TOLERANCE]
    have hp0 : (0 : ℚ) ≤ a * q := by nlinarith
    have hp1 : a * q < 1 / 2 := by nlinarith
    have hr : jround (a * q) = 0 := by
      unfold jround
      rw [Int.floor_eq_zero_iff]
      exact Set.mem_Ico.mpr ⟨by linarith, by linarith⟩
    rw [fracSearch, if_neg ?_]
    · exact ih fun q' hq' => hqs q' (by simp [hq'])
    · rw [hr]
      push_cast
      rw [sub_zero, jabs_of_nonneg hp0, not_lt]
      nlinarith





lemma radSearch_small (sign : String) (sq : ℚ)
    (h0 : 0 ≤ sq) (h1 : sq < ABS_TOLERANCE) (qs : List ℕ) :
    radSearch sign sq (1 :: qs) = some (sign ++ ("√" ++ toString (0 : ℕ))) := by
  have hT : ABS_TOLERANCE < 1 / 2 := by norm_num [ABS_TOLERANCE]
  have hr : jround (sq * ((1 : ℕ) : ℚ)) = 0 := by
    unfold jround
    rw [Int.floor_eq_zero_iff]
    push_cast
    exact Set.mem_Ico.mpr ⟨by linarith, by linarith⟩
  rw [radSearch, if_pos ?_]
  · simp only [hr, Int.toNat_zero]
    have hg : gcdJS 0 1 = 1 := rfl
    rw [hg]
    norm_num
    have hs0 : simplifyRoot 0 = (1, 0) := by with_unfolding_all decide
    have hs1 : simplifyRoot 1 = (1, 1) := by with_unfolding_all decide
    rw [hs0, hs1]
    norm_num
  · rw [hr]
    push_cast
    rw [mul_one, sub_zero, jabs_of_nonneg h0]
    exact h1





/-- Claim C10: a value with `1e-5 ≤ |v|` but `v² < 1e-5` slips through the
zero, integer and fraction steps, matches the radical step at `q = 1` with
numerator rounded to 0, and is formatted as the signed string "√0". -/
theorem claim_C10 : ∀ v : ℚ,
    ABS_TOLERANCE ≤ jabs v → jabs v * jabs v < ABS_TOLERANCE →
    formatSmart v = (if v < 0 then "-" else "") ++ "√0" := by
  intro v hge hsq
  have hTdef : ABS_TOLERANCE = 1 / 100000 := rfl
  have h1 : ¬ jabs v < ABS_TOLERANCE := not_lt.mpr hge
  have hpos := jabs_nonneg v
  have hlt : jabs v < 1 / 100 := by
    by_contra hcon
    push_neg at hcon
    rw [hTdef] at hsq
    nlinarith
  have hr0 : jround (jabs v) = 0 := by
    unfold jround
    rw [Int.floor_eq_zero_iff]
    exact Set.mem_Ico.mpr ⟨by linarith, by linarith⟩
  have h2 : ¬ jabs (jabs v - (jround (jabs v) : ℚ)) < ABS_TOLERANCE := by
    rw [hr0]
    push_cast
    rw [sub_zero, jabs_of_nonneg hpos]
    exact h1
  have h3 : fracSearch (if v < 0 then "-" else "") (jabs v) (List.range' 2 49) = none :=
    fracSearch_none_of_small _ _ hge hlt _ (by decide)
  have h4 := radSearch_small (if v < 0 then "-" else "") (jabs v * jabs v)
    (mul_nonneg hpos hpos) hsq (List.range' 2 99)
  have hlist : List.range' 1 100 = 1 :: List.range' 2 99 := rfl
  unfold formatSmart
  dsimp only
  rw [if_neg h1, if_neg h2]
  simp only [h3, hlist, h4]
  have hstr : "√" ++ toString (0 : ℕ) = "√0" := by with_unfolding_all decide
  rw [hstr]

theorem claim_C10_witness :
    (ABS_TOLERANCE ≤ jabs (1 / 10000 : ℚ)) ∧
    (jabs (1 / 10000 : ℚ) * jabs (1 / 10000 : ℚ) < ABS_TOLERANCE) ∧
    formatSmart (1 / 10000 : ℚ) =
      (if (1 / 10000 : ℚ) < 0 then "-" else "") ++ "√0" :=
  have ha : ABS_TOLERANCE ≤ jabs (1 / 10000 : ℚ) := by with_unfolding_all decide
  have hb : jabs (1 / 10000 : ℚ) * jabs (1 / 10000 : ℚ) < ABS_TOLERANCE := by
    with_unfolding_all decide
  ⟨ha, hb, claim_C10 (1 / 10000 : ℚ) ha hb⟩

end QS
